import Mathlib

/-!
Shallow embedding of the real-time audio streaming core of the SoulXSkill
voice-conversation client (`src/App.tsx`).  Times (the output clock, the
real-time clock of the audio context, segment durations) are modelled as
rationals; audio sample values as rationals; in-flight playback sources as a
list of segment identifiers; JavaScript strings as Lean strings.
-/

namespace SoulXSkill

/-- Speaker roles, from `AudioMessage.role` in `src/unnamed/part_000` (types). -/
inductive Role
  | user
  | model
deriving DecidableEq, Repr

/-- One finalized transcript entry, from `AudioMessage` (`{ role, text }`). -/
structure Utterance where
  role : Role
  text : String
deriving DecidableEq, Repr

/-- Connection lifecycle state, from `type ConnectionState` in `src/App.tsx`. -/
inductive ConnectionState
  | disconnected
  | connecting
  | connected
deriving DecidableEq, Repr

/-- The mutable session state of `App`: the `messages` state (Transcript), the
streaming text states, the transcription accumulator refs, the playback clock
ref `nextStartTimeRef`, the in-flight source set `sourcesRef` (as a list of
segment ids), and the connection state. -/
structure SessionState where
  messages : List Utterance
  streamingUserText : String
  streamingModelText : String
  currentInputTranscription : String
  currentOutputTranscription : String
  nextStartTime : ℚ
  sources : List ℕ
  connectionState : ConnectionState
deriving DecidableEq, Repr

/-- A session state with everything empty and the clock at 0, as after a fresh
`connect`. -/
def initState : SessionState :=
  { messages := []
    streamingUserText := ""
    streamingModelText := ""
    currentInputTranscription := ""
    currentOutputTranscription := ""
    nextStartTime := 0
    sources := []
    connectionState := ConnectionState.connected }

/-- Code points treated as whitespace by JavaScript `String.prototype.trim`
(WhiteSpace and LineTerminator productions). -/
def isJsWhitespace (c : Char) : Bool :=
  [0x9, 0xA, 0xB, 0xC, 0xD, 0x20, 0xA0, 0x1680,
   0x2000, 0x2001, 0x2002, 0x2003, 0x2004, 0x2005, 0x2006, 0x2007,
   0x2008, 0x2009, 0x200A, 0x2028, 0x2029, 0x202F, 0x205F, 0x3000,
   0xFEFF].contains c.toNat

/-- JavaScript `String.prototype.trim`: strip leading and trailing
whitespace. -/
def jsTrim (s : String) : String :=
  String.mk (((s.data.dropWhile isJsWhitespace).reverse.dropWhile
    isJsWhitespace).reverse)

/-- Incoming `LiveServerMessage`, restricted to the `serverContent` fields the
`onmessage` handler reads: the two transcription fragments, the turn-complete
flag, inline audio data (represented by the duration of the decoded buffer),
and the interrupted flag. -/
structure ServerMessage where
  outputTranscription : Option String
  inputTranscription : Option String
  turnComplete : Bool
  audioDur : Option ℚ
  interrupted : Bool
deriving DecidableEq, Repr

/-- Transcription handling in `onmessage` (`src/App.tsx` lines 196-205): if an
output (model) fragment is present it is appended to the model accumulator and
mirrored to the streaming model text; otherwise (`else if`) an input (user)
fragment is appended to the user accumulator and mirrored to the streaming
user text. -/
def handleTranscript (s : SessionState) (outputT inputT : Option String) :
    SessionState :=
  match outputT, inputT with
  | some t, _ =>
      { s with currentOutputTranscription := s.currentOutputTranscription ++ t
               streamingModelText := s.currentOutputTranscription ++ t }
  | none, some t =>
      { s with currentInputTranscription := s.currentInputTranscription ++ t
               streamingUserText := s.currentInputTranscription ++ t }
  | none, none => s

/-- Turn-complete handling in `onmessage` (`src/App.tsx` lines 207-225): read
both accumulators, clear the streaming texts and the accumulators, then, when
either trimmed text is truthy (non-empty), push the user message first (if its
trimmed text is non-empty) and then the model message (if its trimmed text is
non-empty). -/
def handleTurnComplete (s : SessionState) : SessionState :=
  let userText := s.currentInputTranscription
  let modelText := s.currentOutputTranscription
  let s1 := { s with streamingUserText := ""
                     streamingModelText := ""
                     currentInputTranscription := ""
                     currentOutputTranscription := "" }
  if jsTrim userText ≠ "" ∨ jsTrim modelText ≠ "" then
    { s1 with messages :=
        s1.messages
          ++ (if jsTrim userText ≠ "" then [⟨Role.user, userText⟩] else [])
          ++ (if jsTrim modelText ≠ "" then [⟨Role.model, modelText⟩] else []) }
  else s1

/-- Audio-chunk handling in `onmessage` (`src/App.tsx` lines 228-250):
`nextStartTime = max(nextStartTime, audioCtx.currentTime)`; the decoded buffer
is scheduled with `source.start(nextStartTime)`; then
`nextStartTime += audioBuffer.duration` and the source is added to the
in-flight set.  `rt` is `audioCtx.currentTime` at the moment of handling,
`dur` the decoded buffer's duration and `segId` the fresh source's id.
Returns the updated state and the scheduled start time. -/
def handleAudio (s : SessionState) (rt dur : ℚ) (segId : ℕ) :
    SessionState × ℚ :=
  let startTime := max s.nextStartTime rt
  ({ s with nextStartTime := startTime + dur
            sources := s.sources ++ [segId] }, startTime)

/-- The scheduler part of interruption handling (`src/App.tsx` lines 255-257):
stop every in-flight source, clear the set, and set `nextStartTime` to 0.
Returns the updated state and the list of sources that were stopped. -/
def flushScheduler (s : SessionState) : SessionState × List ℕ :=
  ({ s with sources := []
            nextStartTime := 0 }, s.sources)

/-- Interruption handling in `onmessage` (`src/App.tsx` lines 254-262): flush
the scheduler, then clear only the model-side transcription accumulator and
the streaming model text. -/
def handleInterrupted (s : SessionState) : SessionState × List ℕ :=
  let p := flushScheduler s
  ({ p.1 with currentOutputTranscription := ""
              streamingModelText := "" }, p.2)

/-- Natural end of playback for one source (`source.onended`,
`src/App.tsx` line 250): the source is removed from the in-flight set. -/
def handleEnded (s : SessionState) (segId : ℕ) : SessionState :=
  { s with sources := s.sources.filter (· ≠ segId) }

/-- The full `onmessage` dispatch (`src/App.tsx` lines 195-263), composing the
four handlers in source order: transcription, turn completion, audio output,
interruption.  Returns the updated state, the scheduled start time of the
audio chunk (when one was present), and the list of stopped sources. -/
def onmessage (s : SessionState) (msg : ServerMessage) (rt : ℚ) (segId : ℕ) :
    SessionState × Option ℚ × List ℕ :=
  let s1 := handleTranscript s msg.outputTranscription msg.inputTranscription
  let s2 := if msg.turnComplete then handleTurnComplete s1 else s1
  let p3 : SessionState × Option ℚ :=
    match msg.audioDur with
    | some dur =>
        let p := handleAudio s2 rt dur segId
        (p.1, some p.2)
    | none => (s2, none)
  let p4 : SessionState × List ℕ :=
    if msg.interrupted then handleInterrupted p3.1 else (p3.1, [])
  (p4.1, p3.2, p4.2)

/-- Teardown (`disconnect` in `src/App.tsx` lines 88-119, also invoked by the
`onclose` and `onerror` callbacks): stop the capture tracks, close the
session and the audio contexts, stop every in-flight source and clear the
set, set the connection state to disconnected, and clear both transcription
accumulators and both streaming texts.  `nextStartTimeRef` and `messages` are
not touched.  Returns the updated state and the list of stopped sources. -/
def disconnect (s : SessionState) : SessionState × List ℕ :=
  ({ s with sources := []
            connectionState := ConnectionState.disconnected
            currentInputTranscription := ""
            currentOutputTranscription := ""
            streamingUserText := ""
            streamingModelText := "" }, s.sources)

/-- A run of consecutive audio-chunk events: each element of `chunks` is the
pair (real time at handling, decoded duration).  Returns the final state and
the list of (scheduled start time, duration) pairs, in order. -/
def runAudio : SessionState → List (ℚ × ℚ) → SessionState × List (ℚ × ℚ)
  | s, [] => (s, [])
  | s, c :: rest =>
      let p := handleAudio s c.1 c.2 0
      let r := runAudio p.1 rest
      (r.1, (p.2, c.2) :: r.2)

/-- Modelled from the spec: round half away from zero, the rounding §4.1
prescribes for `encode` in the missing `src/services/audioUtils.ts`. -/
def rhaz (x : ℚ) : ℤ :=
  if 0 ≤ x then ⌊x + 1 / 2⌋ else -⌊-x + 1 / 2⌋

/-- Modelled from the spec: clamp a sample to `[-1, 1]` before quantization
(§4.1, missing `src/services/audioUtils.ts`). -/
def clamp1 (x : ℚ) : ℚ := max (-1) (min 1 x)

/-- Modelled from the spec: quantize one clamped sample to a signed 16-bit
integer, rounding half away from zero and saturating at the int16 range
(§4.1, missing `src/services/audioUtils.ts`). -/
def quant16 (x : ℚ) : ℤ :=
  max (-32768) (min 32767 (rhaz (clamp1 x * 32768)))

/-- Modelled from the spec: serialize one signed 16-bit value as two
little-endian bytes in two's complement (§4.1, missing
`src/services/audioUtils.ts`). -/
def int16ToBytesLE (q : ℤ) : List ℕ :=
  [(q % 65536).toNat % 256, (q % 65536).toNat / 256]

/-- Modelled from the spec: `encode` of the missing
`src/services/audioUtils.ts` (§4.1) — clamp, quantize to int16 rounding half
away from zero, serialize little-endian. -/
def pcm16Encode (samples : List ℚ) : List ℕ :=
  samples.flatMap (fun x => int16ToBytesLE (quant16 x))

/-- Modelled from the spec: reconstruct one sample from an unsigned 16-bit
word: reinterpret as signed two's complement, divide by 32768 (§4.1, missing
`src/services/audioUtils.ts`). -/
def pcmToSample (u : ℕ) : ℚ :=
  ((if u < 32768 then (u : ℤ) else (u : ℤ) - 65536 : ℤ) : ℚ) / 32768

/-- Modelled from the spec: `decode` of the missing
`src/services/audioUtils.ts` (§4.1) — read little-endian byte pairs,
truncating a trailing partial sample. -/
def pcm16Decode : List ℕ → List ℚ
  | b0 :: b1 :: rest => pcmToSample (b0 + 256 * b1) :: pcm16Decode rest
  | _ => []

/-- Modelled from the spec: `createPCM16Blob` of the missing
`src/services/audioUtils.ts`, as used by `scriptProcessor.onaudioprocess` —
the encoded bytes of one captured buffer (the transport base64 framing is
kept out of the model; it is a bijection on byte sequences per §4.1). -/
def createPCM16Blob (samples : List ℚ) : List ℕ := pcm16Encode samples

/-- A `serverContent` message carrying only the `interrupted` flag. -/
def interruptedMsg : ServerMessage :=
  { outputTranscription := none
    inputTranscription := none
    turnComplete := false
    audioDur := none
    interrupted := true }

/-- A `serverContent` message carrying both an output (model) transcription
fragment `t` and an input (user) transcription fragment `u`. -/
def bothMsg (t u : String) : ServerMessage :=
  { outputTranscription := some t
    inputTranscription := some u
    turnComplete := false
    audioDur := none
    interrupted := false }

/-- A connected state mid-interruption: non-empty model buffer, a user
mid-utterance, two in-flight segments, an advanced clock. -/
def interruptState : SessionState :=
  { initState with currentOutputTranscription := "model said"
                   currentInputTranscription := "user said"
                   streamingUserText := "user said"
                   sources := [1, 2]
                   nextStartTime := 7 }

/-- An idle connected state: in-flight set already empty but the clock still
advanced past previously played audio. -/
def idleSchedulerState : SessionState := { initState with nextStartTime := 5 }

/-- A state with two in-flight segments and an advanced output clock. -/
def busySchedulerState : SessionState :=
  { initState with sources := [1, 2]
                   nextStartTime := 5 }

/-- A mid-turn state: the user buffer holds text no turnComplete has
finalized. -/
def midTurnState : SessionState :=
  { initState with currentInputTranscription := "unfinished thought"
                   streamingUserText := "unfinished thought" }

/-- Concatenation, in arrival order, of the fragments belonging to speaker
`r` in the fragment list `fs`. -/
def speakerConcat (r : Role) : List (Role × String) → String
  | [] => ""
  | f :: rest => (if f.1 = r then f.2 else "") ++ speakerConcat r rest

/-- One transcription-fragment message applied to the state: a model fragment
arrives as `outputTranscription`, a user fragment as `inputTranscription`. -/
def applyFragment (s : SessionState) : Role × String → SessionState
  | (Role.model, t) => handleTranscript s (some t) none
  | (Role.user, t) => handleTranscript s none (some t)

/-- A run of transcription-fragment messages, in arrival order. -/
def applyFragments (s : SessionState) : List (Role × String) → SessionState
  | [] => s
  | f :: rest => applyFragments (applyFragment s f) rest

/-- The transcript growth the claim predicts at turn completion: one
utterance per speaker whose buffered text is non-empty, user first.  Stated
from the claim's words, for comparison with `handleTurnComplete`. -/
def claimedTurnAppend (userText modelText : String) : List Utterance :=
  (if userText ≠ "" then [⟨Role.user, userText⟩] else [])
    ++ (if modelText ≠ "" then [⟨Role.model, modelText⟩] else [])

/-- A state whose user buffer holds a single space (non-empty, but trimmed
empty) and whose model buffer holds "hi". -/
def whitespaceTurnState : SessionState :=
  { initState with currentInputTranscription := " "
                   currentOutputTranscription := "hi" }

/-- User-interaction and capture-flow actions relevant to muting: the mute
toggle, and the arrival of one captured audio buffer. -/
inductive CaptureAction
  | toggleMute
  | capture (buf : List ℚ)
deriving DecidableEq

/-- Capture-flow state.  `isMicMuted` is the React state (read by the UI and
by any later `connect`); `capturedMuted` is the value of `isMicMuted` the
`scriptProcessor.onaudioprocess` closure captured when `connect` installed it
(`src/App.tsx` lines 181-190); `sent` lists the frames handed to
`session.sendRealtimeInput`, in order. -/
structure CaptureState where
  isMicMuted : Bool
  capturedMuted : Bool
  sent : List (List ℕ)
deriving DecidableEq

/-- Connecting while the flag is `muted` installs the handler with that value
captured. -/
def connectCapture (muted : Bool) : CaptureState :=
  { isMicMuted := muted, capturedMuted := muted, sent := [] }

/-- One capture-flow step.  `toggleMute` (`src/App.tsx` line 285) flips the
React state only; the installed handler closure is not reinstalled, so the
value it tests stays the one captured at `connect`.  A captured buffer runs
the handler: `if (isMicMuted) return;` against the captured value, else
encode and send. -/
def captureStep (s : CaptureState) : CaptureAction → CaptureState
  | CaptureAction.toggleMute => { s with isMicMuted := !s.isMicMuted }
  | CaptureAction.capture buf =>
      if s.capturedMuted then s
      else { s with sent := s.sent ++ [createPCM16Blob buf] }

/-- A run of capture-flow actions, in order. -/
def captureTrace (s : CaptureState) : List CaptureAction → CaptureState
  | [] => s
  | a :: rest => captureTrace (captureStep s a) rest

/-- C2: processing an `interrupted` event empties the in-flight set, resets
the output clock to 0, empties the model transcription buffer and streaming
model text, and leaves the user buffer, streaming user text and the
transcript unchanged; every previously in-flight segment is stopped. -/
theorem interrupted_effect (s : SessionState) (rt : ℚ) (segId : ℕ)
    (h : s.currentOutputTranscription ≠ "") :
    (onmessage s interruptedMsg rt segId).1.sources = [] ∧
    (onmessage s interruptedMsg rt segId).1.nextStartTime = 0 ∧
    (onmessage s interruptedMsg rt segId).1.currentOutputTranscription = "" ∧
    (onmessage s interruptedMsg rt segId).1.streamingModelText = "" ∧
    (onmessage s interruptedMsg rt segId).1.currentInputTranscription
      = s.currentInputTranscription ∧
    (onmessage s interruptedMsg rt segId).1.streamingUserText
      = s.streamingUserText ∧
    (onmessage s interruptedMsg rt segId).1.messages = s.messages ∧
    (onmessage s interruptedMsg rt segId).2.2 = s.sources := by
  simp [onmessage, interruptedMsg, handleTranscript, handleInterrupted,
    flushScheduler]

theorem interrupted_effect_witness :
    (onmessage interruptState interruptedMsg 3 5).1.sources = [] ∧
    (onmessage interruptState interruptedMsg 3 5).1.nextStartTime = 0 ∧
    (onmessage interruptState interruptedMsg 3 5).1.currentOutputTranscription
      = "" ∧
    (onmessage interruptState interruptedMsg 3 5).1.streamingModelText = "" ∧
    (onmessage interruptState interruptedMsg 3 5).1.currentInputTranscription
      = interruptState.currentInputTranscription ∧
    (onmessage interruptState interruptedMsg 3 5).1.streamingUserText
      = interruptState.streamingUserText ∧
    (onmessage interruptState interruptedMsg 3 5).1.messages
      = interruptState.messages ∧
    (onmessage interruptState interruptedMsg 3 5).2.2
      = interruptState.sources :=
  interrupted_effect interruptState 3 5 (by decide)

/-- C10: a message carrying both an output (model) and an input (user)
transcription fragment appends only the model fragment: the user accumulator,
streaming user text, transcript, clock and in-flight set are unchanged. -/
theorem both_transcriptions_model_only (s : SessionState) (t u : String)
    (rt : ℚ) (segId : ℕ) :
    (onmessage s (bothMsg t u) rt segId).1.currentOutputTranscription
      = s.currentOutputTranscription ++ t ∧
    (onmessage s (bothMsg t u) rt segId).1.streamingModelText
      = s.currentOutputTranscription ++ t ∧
    (onmessage s (bothMsg t u) rt segId).1.currentInputTranscription
      = s.currentInputTranscription ∧
    (onmessage s (bothMsg t u) rt segId).1.streamingUserText
      = s.streamingUserText ∧
    (onmessage s (bothMsg t u) rt segId).1.messages = s.messages ∧
    (onmessage s (bothMsg t u) rt segId).1.sources = s.sources ∧
    (onmessage s (bothMsg t u) rt segId).1.nextStartTime
      = s.nextStartTime := by
  simp [onmessage, bothMsg, handleTranscript]

/-- C6 counterexample: `disconnect` does not reset the output clock to 0; on
a state whose clock stands at 5, the clock still stands at 5 afterwards. -/
theorem stop_no_clock_reset_cex :
    ¬ ((disconnect busySchedulerState).1.nextStartTime = 0) := by
  decide

/-- C6 (amended): the stop()/teardown transition stops every in-flight
segment, clears the in-flight set, and moves to the disconnected state; the
output clock is left unchanged, not reset. -/
theorem stop_teardown_amended (s : SessionState) :
    (disconnect s).2 = s.sources ∧
    (disconnect s).1.sources = [] ∧
    (disconnect s).1.nextStartTime = s.nextStartTime ∧
    (disconnect s).1.connectionState = ConnectionState.disconnected := by
  simp [disconnect]

/-- C7 counterexample: flushing a scheduler whose in-flight set is already
empty is not a no-op when the output clock is nonzero — the clock is reset
from 5 to 0. -/
theorem flush_empty_not_noop_cex :
    flushScheduler idleSchedulerState ≠ (idleSchedulerState, ([] : List ℕ)) := by
  decide

/-- C7 (amended): flush is idempotent — a second flush leaves the state of the
first unchanged and stops nothing — and flushing a scheduler whose in-flight
set is empty and whose output clock is already 0 changes nothing. -/
theorem flush_idempotent_amended (s : SessionState) :
    flushScheduler (flushScheduler s).1 = ((flushScheduler s).1, ([] : List ℕ)) ∧
    (s.sources = [] → s.nextStartTime = 0 → flushScheduler s = (s, [])) := by
  constructor
  · simp [flushScheduler]
  · intro h1 h2
    simp [flushScheduler, h1, h2]
    cases s
    simp_all

theorem flush_idempotent_amended_witness :
    flushScheduler (flushScheduler initState).1
      = ((flushScheduler initState).1, ([] : List ℕ)) ∧
    flushScheduler initState = (initState, ([] : List ℕ)) :=
  ⟨(flush_idempotent_amended initState).1,
   (flush_idempotent_amended initState).2 rfl rfl⟩

/-- C8: invoking `disconnect` (also reached from the `onclose` and `onerror`
callbacks) with a non-empty, non-completed transcription buffer leaves the
transcript unchanged — the buffered text is dropped, never emitted — and
clears both buffers and both streaming texts. -/
theorem stop_drops_unfinalized (s : SessionState)
    (h : s.currentInputTranscription ≠ "" ∨ s.currentOutputTranscription ≠ "") :
    (disconnect s).1.messages = s.messages ∧
    (disconnect s).1.currentInputTranscription = "" ∧
    (disconnect s).1.currentOutputTranscription = "" ∧
    (disconnect s).1.streamingUserText = "" ∧
    (disconnect s).1.streamingModelText = "" := by
  simp [disconnect]

theorem stop_drops_unfinalized_witness :
    (disconnect midTurnState).1.messages = midTurnState.messages ∧
    (disconnect midTurnState).1.currentInputTranscription = "" ∧
    (disconnect midTurnState).1.currentOutputTranscription = "" ∧
    (disconnect midTurnState).1.streamingUserText = "" ∧
    (disconnect midTurnState).1.streamingModelText = "" :=
  stop_drops_unfinalized midTurnState (by decide)

/-- C9 counterexample: the output clock is not monotonically non-decreasing
across every operation — a flush on a state whose clock stands at 5 drops it
to 0, and it is reset to 0 rather than to the current real time. -/
theorem clock_decrease_on_flush_cex :
    (flushScheduler idleSchedulerState).1.nextStartTime
      < idleSchedulerState.nextStartTime := by
  decide

/-- C9 (amended): the output clock never decreases across an enqueue
(audio-chunk handling) and is unchanged by transcription handling, turn
completion, natural segment completion and disconnect; it is mutated only by
enqueue (which advances it) and by flush, which resets it to 0 — a reset that
may decrease it and is independent of the current real time. -/
theorem clock_mutation_amended (s : SessionState) (rt dur : ℚ) (segId : ℕ)
    (outputT inputT : Option String) (h : 0 ≤ dur) :
    s.nextStartTime ≤ (handleAudio s rt dur segId).1.nextStartTime ∧
    (handleTranscript s outputT inputT).nextStartTime = s.nextStartTime ∧
    (handleTurnComplete s).nextStartTime = s.nextStartTime ∧
    (handleEnded s segId).nextStartTime = s.nextStartTime ∧
    (disconnect s).1.nextStartTime = s.nextStartTime ∧
    (flushScheduler s).1.nextStartTime = 0 := by
  refine ⟨?_, ?_, ?_, ?_, ?_, ?_⟩
  · have h1 : s.nextStartTime ≤ max s.nextStartTime rt := le_max_left _ _
    have h2 : max s.nextStartTime rt ≤ max s.nextStartTime rt + dur :=
      le_add_of_nonneg_right h
    simpa [handleAudio] using le_trans h1 h2
  · cases outputT <;> cases inputT <;> simp [handleTranscript]
  · simp [handleTurnComplete]
    split <;> simp
  · simp [handleEnded]
  · simp [disconnect]
  · simp [flushScheduler]

/-- Scheduling facts for a run of audio chunks: adjacent segments are gapless
in the claimed sense (next start is at or after previous start plus previous
duration), every start is at or above the initial clock, and the starts are
pairwise non-decreasing. -/
lemma runAudio_sched (chunks : List (ℚ × ℚ)) :
    ∀ s : SessionState, (∀ c ∈ chunks, 0 ≤ c.2) →
      List.Chain' (fun a b : ℚ × ℚ => a.1 + a.2 ≤ b.1) (runAudio s chunks).2 ∧
      (∀ x ∈ (runAudio s chunks).2, s.nextStartTime ≤ x.1) ∧
      List.Pairwise (fun a b : ℚ × ℚ => a.1 ≤ b.1) (runAudio s chunks).2 := by
  induction chunks with
  | nil =>
      intro s _
      simp [runAudio]
  | cons c rest ih =>
      intro s h
      have hdur : 0 ≤ c.2 := h c (List.mem_cons_self c rest)
      have hrest : ∀ x ∈ rest, 0 ≤ x.2 :=
        fun x hx => h x (List.mem_cons_of_mem c hx)
      obtain ⟨ihc, ihlb, ihp⟩ := ih (handleAudio s c.1 c.2 0).1 hrest
      have hclk : (handleAudio s c.1 c.2 0).1.nextStartTime
          = max s.nextStartTime c.1 + c.2 := rfl
      rw [hclk] at ihlb
      have hshape : (runAudio s (c :: rest)).2
          = (max s.nextStartTime c.1, c.2)
              :: (runAudio (handleAudio s c.1 c.2 0).1 rest).2 := rfl
      rw [hshape]
      refine ⟨?_, ?_, ?_⟩
      · refine List.chain'_cons'.mpr ⟨?_, ihc⟩
        intro y hy
        exact ihlb y (List.mem_of_mem_head? hy)
      · intro x hx
        rcases List.mem_cons.mp hx with hx | hx
        · rw [hx]
          exact le_max_left _ _
        · exact le_trans (le_trans (le_max_left _ _)
            (le_add_of_nonneg_right hdur)) (ihlb x hx)
      · refine List.pairwise_cons.mpr ⟨?_, ihp⟩
        intro y hy
        exact le_trans (le_add_of_nonneg_right hdur) (ihlb y hy)

/-- C1: each enqueue schedules at `max(OutputClock, currentRealTime)` and
advances the clock to start plus duration; consequently, over any run of
audio-chunk events with non-negative durations, each segment starts at or
after the previous segment's start plus its duration, and the start times are
non-decreasing. -/
theorem enqueue_ordering (s : SessionState) (rt dur : ℚ) (segId : ℕ)
    (chunks : List (ℚ × ℚ)) (h : ∀ c ∈ chunks, 0 ≤ c.2) :
    (handleAudio s rt dur segId).2 = max s.nextStartTime rt ∧
    (handleAudio s rt dur segId).1.nextStartTime
      = max s.nextStartTime rt + dur ∧
    List.Chain' (fun a b : ℚ × ℚ => a.1 + a.2 ≤ b.1) (runAudio s chunks).2 ∧
    List.Pairwise (fun a b : ℚ × ℚ => a.1 ≤ b.1) (runAudio s chunks).2 :=
  ⟨rfl, rfl, (runAudio_sched chunks s h).1, (runAudio_sched chunks s h).2.2⟩

theorem enqueue_ordering_witness :
    (handleAudio initState 2 1 0).2 = max initState.nextStartTime 2 ∧
    (handleAudio initState 2 1 0).1.nextStartTime
      = max initState.nextStartTime 2 + 1 ∧
    List.Chain' (fun a b : ℚ × ℚ => a.1 + a.2 ≤ b.1)
      (runAudio initState [(2, 1), (1, 2), (5, 1)]).2 ∧
    List.Pairwise (fun a b : ℚ × ℚ => a.1 ≤ b.1)
      (runAudio initState [(2, 1), (1, 2), (5, 1)]).2 :=
  enqueue_ordering initState 2 1 0 [(2, 1), (1, 2), (5, 1)] (by decide)

/-- Fragments for each speaker accumulate by concatenation in arrival order,
and fragment handling never touches the transcript. -/
lemma applyFragments_fields (fs : List (Role × String)) :
    ∀ s : SessionState,
      (applyFragments s fs).currentInputTranscription
          = s.currentInputTranscription ++ speakerConcat Role.user fs ∧
      (applyFragments s fs).currentOutputTranscription
          = s.currentOutputTranscription ++ speakerConcat Role.model fs ∧
      (applyFragments s fs).messages = s.messages := by
  induction fs with
  | nil =>
      intro s
      simp [applyFragments, speakerConcat, String.append_empty]
  | cons f rest ih =>
      intro s
      obtain ⟨r, t⟩ := f
      obtain ⟨ih1, ih2, ih3⟩ := ih (applyFragment s (r, t))
      cases r with
      | user =>
          refine ⟨?_, ?_, ?_⟩
          · rw [show applyFragments s ((Role.user, t) :: rest)
                = applyFragments (applyFragment s (Role.user, t)) rest from rfl,
              ih1]
            simp [applyFragment, handleTranscript, speakerConcat,
              String.append_assoc]
          · rw [show applyFragments s ((Role.user, t) :: rest)
                = applyFragments (applyFragment s (Role.user, t)) rest from rfl,
              ih2]
            simp [applyFragment, handleTranscript, speakerConcat,
              String.empty_append]
          · rw [show applyFragments s ((Role.user, t) :: rest)
                = applyFragments (applyFragment s (Role.user, t)) rest from rfl,
              ih3]
            simp [applyFragment, handleTranscript]
      | model =>
          refine ⟨?_, ?_, ?_⟩
          · rw [show applyFragments s ((Role.model, t) :: rest)
                = applyFragments (applyFragment s (Role.model, t)) rest from rfl,
              ih1]
            simp [applyFragment, handleTranscript, speakerConcat,
              String.empty_append]
          · rw [show applyFragments s ((Role.model, t) :: rest)
                = applyFragments (applyFragment s (Role.model, t)) rest from rfl,
              ih2]
            simp [applyFragment, handleTranscript, speakerConcat,
              String.append_assoc]
          · rw [show applyFragments s ((Role.model, t) :: rest)
                = applyFragments (applyFragment s (Role.model, t)) rest from rfl,
              ih3]
            simp [applyFragment, handleTranscript]

/-- C3 counterexample: on a user buffer holding a single space the claim
predicts a user utterance (that buffer is non-empty), but `handleTurnComplete`
emits none — the code tests non-emptiness of the trimmed text. -/
theorem turn_complete_nonempty_cex :
    (handleTurnComplete whitespaceTurnState).messages
      ≠ whitespaceTurnState.messages
          ++ claimedTurnAppend whitespaceTurnState.currentInputTranscription
              whitespaceTurnState.currentOutputTranscription := by
  decide

/-- C3 (amended): fragments for the same speaker concatenate in arrival
order, and `handleTurnComplete` appends to the transcript exactly one
utterance per speaker whose buffered text is non-empty after trimming
whitespace (JavaScript `trim`), in the fixed order user first then model,
regardless of fragment arrival order, each utterance carrying the untrimmed
concatenation; both buffers and both streaming texts are cleared. -/
theorem turn_complete_amended (s0 : SessionState) (fs : List (Role × String))
    (hu : s0.currentInputTranscription = "")
    (hm : s0.currentOutputTranscription = "") :
    (applyFragments s0 fs).currentInputTranscription
        = speakerConcat Role.user fs ∧
    (applyFragments s0 fs).currentOutputTranscription
        = speakerConcat Role.model fs ∧
    (handleTurnComplete (applyFragments s0 fs)).messages
        = s0.messages
          ++ (if jsTrim (speakerConcat Role.user fs) ≠ ""
              then [⟨Role.user, speakerConcat Role.user fs⟩] else [])
          ++ (if jsTrim (speakerConcat Role.model fs) ≠ ""
              then [⟨Role.model, speakerConcat Role.model fs⟩] else []) ∧
    (handleTurnComplete (applyFragments s0 fs)).currentInputTranscription
        = "" ∧
    (handleTurnComplete (applyFragments s0 fs)).currentOutputTranscription
        = "" ∧
    (handleTurnComplete (applyFragments s0 fs)).streamingUserText = "" ∧
    (handleTurnComplete (applyFragments s0 fs)).streamingModelText = "" := by
  obtain ⟨h1, h2, h3⟩ := applyFragments_fields fs s0
  rw [hu, String.empty_append] at h1
  rw [hm, String.empty_append] at h2
  refine ⟨h1, h2, ?_, ?_, ?_, ?_, ?_⟩
  · simp only [handleTurnComplete, h1, h2, h3]
    split
    · simp
    · rename_i hcond
      push_neg at hcond
      simp [hcond.1, hcond.2]
  · simp only [handleTurnComplete]
    split <;> rfl
  · simp only [handleTurnComplete]
    split <;> rfl
  · simp only [handleTurnComplete]
    split <;> rfl
  · simp only [handleTurnComplete]
    split <;> rfl

theorem turn_complete_amended_witness :
    (applyFragments initState
        [(Role.user, "a"), (Role.model, "b"), (Role.user, "c")]
      ).currentInputTranscription
        = speakerConcat Role.user
            [(Role.user, "a"), (Role.model, "b"), (Role.user, "c")] ∧
    (applyFragments initState
        [(Role.user, "a"), (Role.model, "b"), (Role.user, "c")]
      ).currentOutputTranscription
        = speakerConcat Role.model
            [(Role.user, "a"), (Role.model, "b"), (Role.user, "c")] ∧
    (handleTurnComplete (applyFragments initState
        [(Role.user, "a"), (Role.model, "b"), (Role.user, "c")])).messages
        = initState.messages
          ++ (if jsTrim (speakerConcat Role.user
                  [(Role.user, "a"), (Role.model, "b"), (Role.user, "c")]) ≠ ""
              then [⟨Role.user, speakerConcat Role.user
                  [(Role.user, "a"), (Role.model, "b"), (Role.user, "c")]⟩]
              else [])
          ++ (if jsTrim (speakerConcat Role.model
                  [(Role.user, "a"), (Role.model, "b"), (Role.user, "c")]) ≠ ""
              then [⟨Role.model, speakerConcat Role.model
                  [(Role.user, "a"), (Role.model, "b"), (Role.user, "c")]⟩]
              else []) ∧
    (handleTurnComplete (applyFragments initState
        [(Role.user, "a"), (Role.model, "b"), (Role.user, "c")])
      ).currentInputTranscription = "" ∧
    (handleTurnComplete (applyFragments initState
        [(Role.user, "a"), (Role.model, "b"), (Role.user, "c")])
      ).currentOutputTranscription = "" ∧
    (handleTurnComplete (applyFragments initState
        [(Role.user, "a"), (Role.model, "b"), (Role.user, "c")])
      ).streamingUserText = "" ∧
    (handleTurnComplete (applyFragments initState
        [(Role.user, "a"), (Role.model, "b"), (Role.user, "c")])
      ).streamingModelText = "" :=
  turn_complete_amended initState
    [(Role.user, "a"), (Role.model, "b"), (Role.user, "c")] rfl rfl

theorem clock_mutation_amended_witness :
    initState.nextStartTime ≤ (handleAudio initState 2 1 0).1.nextStartTime ∧
    (handleTranscript initState none none).nextStartTime
      = initState.nextStartTime ∧
    (handleTurnComplete initState).nextStartTime = initState.nextStartTime ∧
    (handleEnded initState 0).nextStartTime = initState.nextStartTime ∧
    (disconnect initState).1.nextStartTime = initState.nextStartTime ∧
    (flushScheduler initState).1.nextStartTime = 0 :=
  clock_mutation_amended initState 2 1 0 none none (by decide)

/-- C5 evaluated at the failing input: connect unmuted, toggle the mute flag
on, then one captured buffer — the flag reads muted, yet a frame is still
sent, because the handler closure tests the stale connect-time value.  The
claim says the buffer is discarded and no frame goes out. -/
theorem mute_toggle_stale :
    (captureTrace (connectCapture false)
        [CaptureAction.toggleMute, CaptureAction.capture [0]]).isMicMuted
      = true ∧
    (captureTrace (connectCapture false)
        [CaptureAction.toggleMute, CaptureAction.capture [0]]).sent
      ≠ [] := by
  constructor
  · rfl
  · simp [captureTrace, captureStep, connectCapture]

/-- Round half away from zero is within a half of its argument. -/
lemma rhaz_close (x : ℚ) : |(rhaz x : ℚ) - x| ≤ 1 / 2 := by
  unfold rhaz
  by_cases h : 0 ≤ x
  · rw [if_pos h, abs_le]
    have h1 : (⌊x + 1 / 2⌋ : ℚ) ≤ x + 1 / 2 := Int.floor_le _
    have h2 : x + 1 / 2 < ⌊x + 1 / 2⌋ + 1 := Int.lt_floor_add_one _
    constructor <;> linarith
  · rw [if_neg h, abs_le]
    have h1 : (⌊-x + 1 / 2⌋ : ℚ) ≤ -x + 1 / 2 := Int.floor_le _
    have h2 : -x + 1 / 2 < ⌊-x + 1 / 2⌋ + 1 := Int.lt_floor_add_one _
    push_cast
    constructor <;> linarith

/-- The clamped sample lies in `[-1, 1]`. -/
lemma clamp1_mem (x : ℚ) : -1 ≤ clamp1 x ∧ clamp1 x ≤ 1 := by
  unfold clamp1
  exact ⟨le_max_left _ _, max_le (by norm_num) (min_le_left _ _)⟩

/-- The quantized sample lies in the int16 range. -/
lemma quant16_range (x : ℚ) : -32768 ≤ quant16 x ∧ quant16 x ≤ 32767 := by
  unfold quant16
  exact ⟨le_max_left _ _, max_le (by norm_num) (min_le_left _ _)⟩

/-- The quantized sample is within one quantization step (on the 32768 scale)
of the clamped sample. -/
lemma quant16_close (x : ℚ) :
    |(quant16 x : ℚ) - clamp1 x * 32768| ≤ 1 := by
  have hc := clamp1_mem x
  have hr := rhaz_close (clamp1 x * 32768)
  have habs := abs_le.mp hr
  have hylo : (-32768 : ℚ) ≤ clamp1 x * 32768 := by nlinarith [hc.1]
  have hyhi : clamp1 x * 32768 ≤ 32768 := by nlinarith [hc.2]
  have hrlo : -32768 ≤ rhaz (clamp1 x * 32768) := by
    have hq : (-32769 : ℚ) < (rhaz (clamp1 x * 32768) : ℚ) := by linarith
    have : (-32769 : ℤ) < rhaz (clamp1 x * 32768) := by exact_mod_cast hq
    omega
  have hrhi : rhaz (clamp1 x * 32768) ≤ 32768 := by
    have hq : (rhaz (clamp1 x * 32768) : ℚ) < 32769 := by linarith
    have : rhaz (clamp1 x * 32768) < (32769 : ℤ) := by exact_mod_cast hq
    omega
  unfold quant16
  have hmax : max (-32768) (min 32767 (rhaz (clamp1 x * 32768)))
      = min 32767 (rhaz (clamp1 x * 32768)) :=
    max_eq_right (le_min (by norm_num) hrlo)
  rw [hmax]
  rcases le_or_lt (rhaz (clamp1 x * 32768)) 32767 with hle | hgt
  · rw [min_eq_right hle]
    linarith [abs_le.mp hr]
  · have h32768 : rhaz (clamp1 x * 32768) = 32768 := by omega
    rw [min_eq_left (le_of_lt hgt)]
    have hcast : (rhaz (clamp1 x * 32768) : ℚ) = 32768 := by
      exact_mod_cast h32768
    rw [hcast] at habs
    rw [abs_le]
    push_cast
    constructor <;> linarith [habs.1, habs.2]

/-- Decoding the little-endian serialization of an in-range int16 recovers
it, leaving the remaining bytes to decode. -/
lemma pcm16Decode_cons (q : ℤ) (hlo : -32768 ≤ q) (hhi : q ≤ 32767)
    (rest : List ℕ) :
    pcm16Decode (int16ToBytesLE q ++ rest)
      = ((q : ℚ) / 32768) :: pcm16Decode rest := by
  have hshape : int16ToBytesLE q ++ rest
      = (q % 65536).toNat % 256 :: ((q % 65536).toNat / 256 :: rest) := rfl
  rw [hshape]
  simp only [pcm16Decode]
  have hu : (q % 65536).toNat % 256 + 256 * ((q % 65536).toNat / 256)
      = (q % 65536).toNat := Nat.mod_add_div _ _
  rw [hu]
  congr 1
  unfold pcmToSample
  by_cases hq : 0 ≤ q
  · have hlt : (q % 65536).toNat < 32768 := by omega
    rw [if_pos hlt]
    have hv : (((q % 65536).toNat : ℤ)) = q := by omega
    rw [hv]
  · have hge : ¬ ((q % 65536).toNat < 32768) := by omega
    rw [if_neg hge]
    have hv : (((q % 65536).toNat : ℤ)) - 65536 = q := by omega
    rw [hv]

/-- Decoding an encoded buffer yields exactly the per-sample quantized
values. -/
lemma pcm16_roundtrip_map (S : List ℚ) :
    pcm16Decode (pcm16Encode S)
      = S.map (fun x => ((quant16 x : ℤ) : ℚ) / 32768) := by
  induction S with
  | nil => rfl
  | cons x rest ih =>
      have hq := quant16_range x
      have hcons : pcm16Encode (x :: rest)
          = int16ToBytesLE (quant16 x) ++ pcm16Encode rest := rfl
      rw [List.map_cons, hcons, pcm16Decode_cons _ hq.1 hq.2, ih]

/-- C4: decode inverts encode up to quantization error — for every sample
buffer, the decoded buffer matches the input sample-for-sample (same length,
same order), each decoded value within 1/32768 of the clamped input value. -/
theorem codec_roundtrip (S : List ℚ) :
    List.Forall₂ (fun d x => |d - clamp1 x| ≤ (1 : ℚ) / 32768)
      (pcm16Decode (pcm16Encode S)) S := by
  rw [pcm16_roundtrip_map]
  induction S with
  | nil => exact List.Forall₂.nil
  | cons x rest ih =>
      refine List.Forall₂.cons ?_ ih
      have h := quant16_close x
      have heq : ((quant16 x : ℤ) : ℚ) / 32768 - clamp1 x
          = (((quant16 x : ℤ) : ℚ) - clamp1 x * 32768) / 32768 := by ring
      rw [heq, abs_div, show |(32768 : ℚ)| = 32768 by norm_num]
      rw [div_le_div_iff₀ (by norm_num) (by norm_num)]
      nlinarith [h]

end SoulXSkill
